import Mathlib

/-!
Shallow embedding of the interactive terminal session controller
(`src/client/src/components/Panels/Main/Terminal/Terminal.tsx`).

Pure logic extracted from the component:
* layout: `handleResizeStop`, `toggleMaximize`, `toggleClose` (lines 98-135);
* input: `handleKey` (lines 146-193), the Enter branch dispatching to the
  interpreter, the Backspace branch, the printable-character branch and the
  three control-byte shortcuts;
* paste: `handlePaste` (lines 219-225);
* output rendering: the "New output" effect (lines 232-247);
* keybinds: `handleKeybinds` (lines 251-269).

Emulator (xterm) calls are modelled as an emitted list of `XAction`s; the
command buffer (`command.current`, a JS string) is a Lean `String`.
-/

namespace Playground

/-- Modelled from the spec: `PgTerminal.MIN_HEIGHT` lives in `utils/pg`, which is
not part of the sources; the spec fixes the example values MIN=30 (topbar
height), DEFAULT=200, MAX=500. -/
def MIN_HEIGHT : Int := 30

/-- Modelled from the spec: `PgTerminal.DEFAULT_HEIGHT` (see `MIN_HEIGHT`). -/
def DEFAULT_HEIGHT : Int := 200

/-- Modelled from the spec: `PgTerminal.MAX_HEIGHT` (see `MIN_HEIGHT`). -/
def MAX_HEIGHT : Int := 500

/-- Modelled from the spec: `PgTerminal.PROMPT` is a fixed prompt marker string
written at the start of each input line (`utils/pg` is not in the sources). -/
def PROMPT : String := "$ "

/-- Modelled from the spec: `PgTerminal.italic` wraps text in italic styling;
content is kept verbatim between the style markers. -/
def italic (s : String) : String := "\x1b[3m" ++ s ++ "\x1b[23m"

/-- Modelled from the spec: `PgTerminal.colorText` is an external color-tagging
concern; the contract is that text content is written verbatim aside from color
tagging, so it is modelled as the identity on content. -/
def colorText (s : String) : String := s

/-- Modelled from the spec: `PgTerminal.isCharValid` accepts printable/typeable
characters and rejects non-printable control bytes. -/
def isCharValid (key : String) : Bool :=
  key.data.all fun c => 32 ≤ c.toNat && c.toNat ≤ 126

/-! ## Session layout controller (Terminal.tsx lines 98-135) -/

/-- Terminal.tsx 98-107: `const result = h + d.height;
if (result > PgTerminal.MAX_HEIGHT) return PgTerminal.MAX_HEIGHT; return result;` -/
def handleResizeStop (h d : Int) : Int :=
  if h + d > MAX_HEIGHT then MAX_HEIGHT else h + d

/-- Terminal.tsx 116-125: `if (h === PgTerminal.MAX_HEIGHT) return
PgTerminal.DEFAULT_HEIGHT; return PgTerminal.MAX_HEIGHT;` -/
def toggleMaximizeH (h : Int) : Int :=
  if h = MAX_HEIGHT then DEFAULT_HEIGHT else MAX_HEIGHT

/-- Terminal.tsx 131-134: `if (h === 0) return PgTerminal.DEFAULT_HEIGHT;
return 0;` -/
def toggleCloseH (h : Int) : Int :=
  if h = 0 then DEFAULT_HEIGHT else 0

/-- Session layout state: the `isClosed` flag (line 127) and the `height`
state (line 73). -/
structure Session where
  isClosed : Bool
  height : Int
  deriving DecidableEq

/-- Initial state at mount: `useState(false)` and
`useState(PgTerminal.DEFAULT_HEIGHT)` (lines 73, 127). -/
def initSession : Session :=
  { isClosed := false, height := DEFAULT_HEIGHT }

/-- Terminal.tsx 129-135: `toggleClose` flips `isClosed` and toggles the height
between 0 and DEFAULT_HEIGHT. -/
def toggleCloseS (s : Session) : Session :=
  { isClosed := !s.isClosed, height := toggleCloseH s.height }

/-- Terminal.tsx 116-125: `toggleMaximize` updates only the height;
`isClosed` is untouched. -/
def toggleMaximizeS (s : Session) : Session :=
  { s with height := toggleMaximizeH s.height }

/-- Terminal.tsx 98-107: the drag-resize-stop handler updates only the height;
`isClosed` is untouched. -/
def dragResizeS (s : Session) (d : Int) : Session :=
  { s with height := handleResizeStop s.height d }

/-- States reachable from the initial state by the three layout operations
(`toggleClose` via button/Ctrl+J/Ctrl+backtick, `toggleMaximize` via
button/Ctrl+M, drag resize). -/
inductive Reachable : Session → Prop
  | init : Reachable initSession
  | close {s : Session} : Reachable s → Reachable (toggleCloseS s)
  | maximize {s : Session} : Reachable s → Reachable (toggleMaximizeS s)
  | drag {s : Session} (d : Int) : Reachable s → Reachable (dragResizeS s d)

/-- The spec's session invariant: `closed == true ⇔ height == 0`. -/
def TerminalInv (s : Session) : Prop :=
  s.isClosed = true ↔ s.height = 0

instance (s : Session) : Decidable (TerminalInv s) :=
  inferInstanceAs (Decidable (s.isClosed = true ↔ s.height = 0))

/-! ## Emulator calls

Every xterm call made by the handlers is recorded as an `XAction`; handlers
return the emitted action list together with the new command buffer. -/

/-- One emulator/controller call: `xterm.writeln`, `xterm.write`,
`PgTerminal.parseCommand`, `PgTerminal.removeLastChar`, `xterm.clear`,
`PgTerminal.clearCurrentLine`, `xterm.scrollToBottom`, `xterm.focus`, and the
layout callbacks `toggleMaximize`/`toggleClose`. -/
inductive XAction where
  | writeln (s : String)
  | write (s : String)
  | parseCmd (cmd : String)
  | removeLastChar
  | clearScreen
  | clearLine
  | scrollToBottom
  | focusTerm
  | maximizeAct
  | closeAct
  deriving DecidableEq

/-- Terminal.tsx 169-171: the unrecognized-command message,
`Command '${PgTerminal.italic(command.current.trim())}' not found.\n\n${PROMPT}`. -/
def notFoundMsg (cmd : String) : String :=
  "Command \x27" ++ italic cmd.trim ++ "\x27 not found.\n\n" ++ PROMPT

/-- Terminal.tsx 153-177, the Enter branch of `handleKey`: write a newline,
dispatch `command.current` to `PgTerminal.parseCommand` (whose verdict is
`isValidCommand`), on an invalid verdict write the not-found message (non-empty
buffer) or the bare prompt (empty buffer), then clear the buffer. -/
def enterKey (cmd : String) (isValidCommand : Bool) : List XAction × String :=
  (XAction.writeln "" :: XAction.parseCmd cmd ::
    (if isValidCommand then []
     else if cmd ≠ "" then [XAction.write (notFoundMsg cmd)]
     else [XAction.write PROMPT]),
   "")

/-- Terminal.tsx 183-186: `command.current.substring(0, command.current.length - 1)`
removes the last character; on the empty string the negative end index clamps
to 0, yielding the empty string. -/
def deleteLastChar (s : String) : String :=
  String.mk s.data.dropLast

/-- The `domEvent.key` dispatch of `handleKey` (lines 153, 179): `"Enter"`,
`"Backspace"`, or anything else (covered by the `key` character branches). -/
inductive DomKey where
  | enter
  | backspace
  | other
  deriving DecidableEq

/-- Terminal.tsx 146-193, `handleKey`: Enter submits, Backspace (under the
always-true guard `command.current.length >= 0`) deletes the last character,
a valid printable `key` is echoed and appended, and the control bytes
`\x0c`/`\x0d`/`\x0a` invoke clear / toggleMaximize / toggleClose. The verdict
`isValidCommand` stands for the result of `PgTerminal.parseCommand`. -/
def handleKey (domKey : DomKey) (key : String) (cmd : String)
    (isValidCommand : Bool) : List XAction × String :=
  match domKey with
  | DomKey.enter => enterKey cmd isValidCommand
  | DomKey.backspace =>
    if 0 ≤ cmd.length then ([XAction.removeLastChar], deleteLastChar cmd)
    else ([], cmd)
  | DomKey.other =>
    if isCharValid key then ([XAction.write key], cmd ++ key)
    else if key = "\x0c" then ([XAction.clearScreen], cmd)
    else if key = "\x0d" then ([XAction.maximizeAct], cmd)
    else if key = "\x0a" then ([XAction.closeAct], cmd)
    else ([], cmd)

/-- Terminal.tsx 110-112: the `clear` callback runs `xterm.clear()` only; the
command buffer is not mentioned. -/
def clearCb (cmd : String) : List XAction × String :=
  ([XAction.clearScreen], cmd)

/-- Terminal.tsx 219-225, `handlePaste`: if `e.clipboardData?.getData("text")`
is present and truthy (non-empty), write it and append it to the buffer;
otherwise do nothing. -/
def handlePaste (cmd : String) (pasteText : Option String) :
    List XAction × String :=
  match pasteText with
  | none => ([], cmd)
  | some t => if t ≠ "" then ([XAction.write t], cmd ++ t) else ([], cmd)

/-- Terminal.tsx 251-269, `handleKeybinds`: on Ctrl/Cmd chords, L clears,
backtick closes when the terminal is focused and focuses it otherwise,
J closes, M maximizes. `keyUpper` stands for `e.key.toUpperCase()`. -/
def handleKeybinds (ctrlOrCmd : Bool) (keyUpper : String) (focused : Bool)
    (cmd : String) : List XAction × String :=
  if ctrlOrCmd then
    if keyUpper = "L" then ([XAction.clearScreen], cmd)
    else if keyUpper = "`" then
      (if focused then [XAction.closeAct] else [XAction.focusTerm], cmd)
    else if keyUpper = "J" then ([XAction.closeAct], cmd)
    else if keyUpper = "M" then ([XAction.maximizeAct], cmd)
    else ([], cmd)
  else ([], cmd)

/-! ## Output renderer (Terminal.tsx lines 232-247)

JS string primitives used there (`split(PROMPT)[1]`, `trim()`) are embedded as
structurally recursive functions on the character list of the string. -/

/-- JS `line.split(sep)` restricted to what the code consumes: split at the
first occurrence of `sep`, returning the part before it and the rest after it,
or `none` when `sep` does not occur. -/
def splitFirst (sep : List Char) : List Char → Option (List Char × List Char)
  | [] => none
  | c :: rest =>
    if sep.isPrefixOf (c :: rest) then some ([], (c :: rest).drop sep.length)
    else match splitFirst sep rest with
      | none => none
      | some (pre, suf) => some (c :: pre, suf)

/-- JS `line.split(sep)[1]`: the segment between the first and second
occurrence of `sep` (to the end when `sep` occurs once); `none` (JS
`undefined`) when `sep` does not occur at all. -/
def jsSplitIndexOne (sep line : List Char) : Option (List Char) :=
  match splitFirst sep line with
  | none => none
  | some (_, suf) =>
    match splitFirst sep suf with
    | none => some suf
    | some (pre, _) => some pre

/-- JS `String.prototype.trim` on a character list: drop whitespace from both
ends. -/
def trimChars (l : List Char) : List Char :=
  ((l.dropWhile Char.isWhitespace).reverse.dropWhile Char.isWhitespace).reverse

/-- Terminal.tsx 234-235: `!currentLine?.split(PgTerminal.PROMPT)[1]?.trim()?.length`
— true when there is no current line, no prompt on it, or nothing but
whitespace after the prompt. -/
def noCmd (currentLine : Option String) : Bool :=
  match currentLine with
  | none => true
  | some l =>
    match jsSplitIndexOne PROMPT.data l.data with
    | none => true
    | some p => (trimChars p).isEmpty

/-- Terminal.tsx 232-247, the "New output" effect: clear the current line when
it holds no in-progress command, else write a newline; then write the event
text (`writeln (colorText text)`, or a bare `write PROMPT` when the text is
exactly the prompt); finally scroll to the bottom. -/
def renderOutput (currentLine : Option String) (text : String) : List XAction :=
  (if noCmd currentLine then [XAction.clearLine] else [XAction.writeln ""])
  ++ (if text ≠ PROMPT then [XAction.writeln (colorText text)]
      else [XAction.write PROMPT])
  ++ [XAction.scrollToBottom]

/-! ## Key-sequence helpers for the buffer claims -/

/-- Run a sequence of printable-character key events through `handleKey`. -/
def applyCharKeys (cs : List Char) (cmd : String) : String :=
  cs.foldl (fun b c => (handleKey DomKey.other (String.mk [c]) b true).2) cmd

/-- Run `n` Backspace key events through `handleKey`. -/
def applyBackspaces : Nat → String → String
  | 0, cmd => cmd
  | n + 1, cmd => applyBackspaces n (handleKey DomKey.backspace "" cmd true).2

/-! ## Theorems -/

/-- C2 counterexample: from the default height 200, a drag delta of -200 leaves
`handleResizeStop` at height 0, strictly below `MIN_HEIGHT = 30` — the handler
performs no lower clamp, so the claimed result range `[MIN_HEIGHT, MAX_HEIGHT]`
and the claimed clamping to `MIN_HEIGHT` fail. -/
theorem handleResizeStop_no_lower_clamp :
    handleResizeStop DEFAULT_HEIGHT (-200) = 0 ∧
    handleResizeStop DEFAULT_HEIGHT (-200) < MIN_HEIGHT := by
  decide

/-- C2 (amended): for every current height and drag delta, the resulting height
is `min (h + d) MAX_HEIGHT`: deltas that would exceed `MAX_HEIGHT` clamp
exactly to `MAX_HEIGHT` and the result never exceeds `MAX_HEIGHT`, but the
handler applies no lower clamp; whenever the delta keeps `h + d` at or above
`MIN_HEIGHT` (which the resizable widget's `minHeight` bound guarantees), the
result lies in `[MIN_HEIGHT, MAX_HEIGHT]`. -/
theorem handleResizeStop_clamp (h d : Int) :
    handleResizeStop h d = min (h + d) MAX_HEIGHT ∧
    handleResizeStop h d ≤ MAX_HEIGHT ∧
    (MIN_HEIGHT ≤ h + d →
      MIN_HEIGHT ≤ handleResizeStop h d ∧ handleResizeStop h d ≤ MAX_HEIGHT) := by
  unfold handleResizeStop MIN_HEIGHT MAX_HEIGHT
  refine ⟨?_, ?_, fun hd => ⟨?_, ?_⟩⟩ <;> split <;> omega

/-- Witness for `handleResizeStop_clamp` at height 200, delta 150. -/
theorem handleResizeStop_clamp_witness :
    MIN_HEIGHT ≤ DEFAULT_HEIGHT + 150 ∧
    MIN_HEIGHT ≤ handleResizeStop DEFAULT_HEIGHT 150 ∧
    handleResizeStop DEFAULT_HEIGHT 150 ≤ MAX_HEIGHT :=
  ⟨by decide, (handleResizeStop_clamp DEFAULT_HEIGHT 150).2.2 (by decide)⟩

/-- C5: `toggleMaximize` from `MAX_HEIGHT` yields `DEFAULT_HEIGHT`; from any
other height (including 0 and any custom height) it yields `MAX_HEIGHT`. -/
theorem toggleMaximizeH_spec :
    toggleMaximizeH MAX_HEIGHT = DEFAULT_HEIGHT ∧
    ∀ h : Int, h ≠ MAX_HEIGHT → toggleMaximizeH h = MAX_HEIGHT := by
  refine ⟨by decide, fun h hne => ?_⟩
  unfold toggleMaximizeH
  exact if_neg hne

/-- Witness for `toggleMaximizeH_spec` at height 0. -/
theorem toggleMaximizeH_spec_witness :
    (0 : Int) ≠ MAX_HEIGHT ∧ toggleMaximizeH 0 = MAX_HEIGHT ∧
    toggleMaximizeH MAX_HEIGHT = DEFAULT_HEIGHT :=
  ⟨by decide, toggleMaximizeH_spec.2 0 (by decide), toggleMaximizeH_spec.1⟩

/-- C6 counterexample: `DEFAULT_HEIGHT = 200` is an open height (≠ 0), and
applying `toggleClose` twice from it yields exactly the original height 200,
contradicting the claim's "never the original height h". -/
theorem toggleCloseH_twice_original :
    DEFAULT_HEIGHT ≠ (0 : Int) ∧
    toggleCloseH (toggleCloseH DEFAULT_HEIGHT) = DEFAULT_HEIGHT := by
  decide

/-- C6 (amended): for every open height h (h ≠ 0), the first `toggleClose`
yields height 0 and the second yields `DEFAULT_HEIGHT`; the double application
differs from the original height except in the single case
h = DEFAULT_HEIGHT. -/
theorem toggleCloseH_twice (h : Int) (hne : h ≠ 0) :
    toggleCloseH h = 0 ∧
    toggleCloseH (toggleCloseH h) = DEFAULT_HEIGHT ∧
    (h ≠ DEFAULT_HEIGHT → toggleCloseH (toggleCloseH h) ≠ h) := by
  have h1 : toggleCloseH h = 0 := by
    unfold toggleCloseH
    exact if_neg hne
  have h2 : toggleCloseH (toggleCloseH h) = DEFAULT_HEIGHT := by
    rw [h1]
    decide
  refine ⟨h1, h2, fun hd => ?_⟩
  rw [h2]
  exact fun e => hd e.symm

/-- Witness for `toggleCloseH_twice` at the open height 500 (= MAX_HEIGHT). -/
theorem toggleCloseH_twice_witness :
    (500 : Int) ≠ 0 ∧ toggleCloseH 500 = 0 ∧
    toggleCloseH (toggleCloseH 500) = DEFAULT_HEIGHT ∧
    toggleCloseH (toggleCloseH 500) ≠ 500 := by
  have hw := toggleCloseH_twice 500 (by decide)
  exact ⟨by decide, hw.1, hw.2.1, hw.2.2 (by decide)⟩

/-- C1 counterexample: the state after one `toggleClose` from the initial state
is reachable and satisfies the invariant (closed, height 0), but applying
`toggleMaximize` to it (Ctrl+M is a document-scoped keybind, available while
closed) yields `isClosed = true` with `height = MAX_HEIGHT ≠ 0`, breaking
`closed == true ⇔ height == 0`: `toggleMaximize` updates only the height and
never touches the `isClosed` flag. -/
theorem invariant_broken_by_maximize :
    Reachable (toggleCloseS initSession) ∧
    TerminalInv (toggleCloseS initSession) ∧
    Reachable (toggleMaximizeS (toggleCloseS initSession)) ∧
    ¬ TerminalInv (toggleMaximizeS (toggleCloseS initSession)) :=
  ⟨Reachable.close Reachable.init, by decide,
   Reachable.maximize (Reachable.close Reachable.init), by decide⟩

/-- C1 (amended): `toggleClose` preserves the invariant
`closed == true ⇔ height == 0` from every state satisfying it; from open
states (`isClosed = false`) `toggleMaximize` preserves it, and drag resize
preserves it whenever the delta keeps the new height at or above `MIN_HEIGHT`
(the widget-enforced bound). From the closed state the invariant is NOT
preserved by `toggleMaximize` (see the counterexample). -/
theorem layout_ops_preserve_invariant (s : Session) (hinv : TerminalInv s) :
    TerminalInv (toggleCloseS s) ∧
    (s.isClosed = false → TerminalInv (toggleMaximizeS s)) ∧
    (∀ d : Int, s.isClosed = false → MIN_HEIGHT ≤ s.height + d →
      TerminalInv (dragResizeS s d)) := by
  obtain ⟨c, h⟩ := s
  simp only [TerminalInv, toggleCloseS, toggleMaximizeS, dragResizeS,
    toggleCloseH, toggleMaximizeH, handleResizeStop,
    MIN_HEIGHT, MAX_HEIGHT, DEFAULT_HEIGHT] at *
  cases c <;> simp_all
  constructor
  · split <;> omega
  · intro d hd
    split <;> omega

/-- Witness for `layout_ops_preserve_invariant` at the initial state with
drag delta 0. -/
theorem layout_ops_preserve_invariant_witness :
    TerminalInv initSession ∧
    TerminalInv (toggleCloseS initSession) ∧
    TerminalInv (toggleMaximizeS initSession) ∧
    TerminalInv (dragResizeS initSession 0) := by
  have hw := layout_ops_preserve_invariant initSession (by decide)
  exact ⟨by decide, hw.1, hw.2.1 rfl, hw.2.2 0 rfl (by decide)⟩

/-- C8: every Enter key press first writes a newline to the emulator and only
then dispatches the buffered command to the interpreter, regardless of the
key payload, the buffer contents (including empty), and the
recognized/unrecognized verdict. -/
theorem enter_newline_before_dispatch (key cmd : String)
    (isValidCommand : Bool) :
    (handleKey DomKey.enter key cmd isValidCommand).1.take 2 =
      [XAction.writeln "", XAction.parseCmd cmd] :=
  rfl

/-- C3: on submission, if the interpreter reports the command unrecognized and
the buffer was non-empty, the dispatcher's post-dispatch output is exactly
`Command '<italic(trim(buffer))>' not found.\n\n<PROMPT>`; if unrecognized and
the buffer was empty, it is exactly the bare prompt; and in every case
(recognized included) the command buffer is empty afterwards. -/
theorem dispatch_unrecognized_spec (cmd : String) (isValidCommand : Bool) :
    (handleKey DomKey.enter "" cmd isValidCommand).2 = "" ∧
    (isValidCommand = false → cmd ≠ "" →
      (handleKey DomKey.enter "" cmd isValidCommand).1.drop 2 =
        [XAction.write (notFoundMsg cmd)]) ∧
    (isValidCommand = false → cmd = "" →
      (handleKey DomKey.enter "" cmd isValidCommand).1.drop 2 =
        [XAction.write PROMPT]) := by
  refine ⟨rfl, ?_, ?_⟩ <;> rintro rfl hc <;> simp [handleKey, enterKey, hc]

/-- Witness for `dispatch_unrecognized_spec`: the unrecognized command `foo`
and the unrecognized empty submission. -/
theorem dispatch_unrecognized_spec_witness :
    (handleKey DomKey.enter "" "foo" false).2 = "" ∧
    (handleKey DomKey.enter "" "foo" false).1.drop 2 =
      [XAction.write (notFoundMsg "foo")] ∧
    (handleKey DomKey.enter "" "" false).1.drop 2 = [XAction.write PROMPT] :=
  ⟨(dispatch_unrecognized_spec "foo" false).1,
   (dispatch_unrecognized_spec "foo" false).2.1 rfl (by decide),
   (dispatch_unrecognized_spec "" false).2.2 rfl rfl⟩

/-- C9: the paste handler appends the pasted text to the command buffer
verbatim — the new buffer is exactly the old buffer concatenated with the
pasted text — and (for non-empty text, the JS truthiness guard) its only
emulator call is a single raw write of that text: no classification into key
actions takes place. -/
theorem paste_verbatim (cmd t : String) :
    (handlePaste cmd (some t)).2 = cmd ++ t ∧
    (t ≠ "" → (handlePaste cmd (some t)).1 = [XAction.write t]) := by
  unfold handlePaste
  by_cases ht : t = ""
  · subst ht
    simp
  · simp [ht]

/-- Witness for `paste_verbatim`: pasting ` -la` onto buffer `ls`. -/
theorem paste_verbatim_witness :
    (handlePaste "ls" (some " -la")).2 = "ls" ++ " -la" ∧
    (handlePaste "ls" (some " -la")).1 = [XAction.write " -la"] :=
  ⟨(paste_verbatim "ls" " -la").1, (paste_verbatim "ls" " -la").2 (by decide)⟩

/-- C10: all three clear paths — the clear button callback, the form-feed
control byte `\x0c` in `handleKey` (Ctrl+L inside the terminal), and the
Ctrl/Cmd+L document keybind — emit exactly one `xterm.clear()` call and leave
the command buffer unchanged, for every buffer content. -/
theorem clear_preserves_buffer (cmd : String) (isValidCommand focused : Bool) :
    (clearCb cmd).1 = [XAction.clearScreen] ∧
    (clearCb cmd).2 = cmd ∧
    (handleKey DomKey.other "\x0c" cmd isValidCommand).1 =
      [XAction.clearScreen] ∧
    (handleKey DomKey.other "\x0c" cmd isValidCommand).2 = cmd ∧
    (handleKeybinds true "L" focused cmd).1 = [XAction.clearScreen] ∧
    (handleKeybinds true "L" focused cmd).2 = cmd :=
  ⟨rfl, rfl, rfl, rfl, rfl, rfl⟩

/-- A run of valid printable-character key events appends exactly those
characters to the buffer. -/
theorem applyCharKeys_data (cs : List Char) (b : String)
    (h : ∀ c ∈ cs, isCharValid (String.mk [c]) = true) :
    (applyCharKeys cs b).data = b.data ++ cs := by
  induction cs generalizing b with
  | nil => simp [applyCharKeys]
  | cons c cs ih =>
    have hc : isCharValid (String.mk [c]) = true := h c (by simp)
    have hstep : applyCharKeys (c :: cs) b = applyCharKeys cs (b ++ String.mk [c]) := by
      simp [applyCharKeys, handleKey, hc]
    rw [hstep, ih (b ++ String.mk [c]) (fun x hx => h x (by simp [hx])),
      String.data_append]
    simp

/-- A run of `n` Backspace key events keeps the first `length - n` characters
of the buffer. -/
theorem applyBackspaces_data (n : Nat) (s : String) :
    (applyBackspaces n s).data = s.data.take (s.data.length - n) := by
  induction n generalizing s with
  | zero => simp [applyBackspaces]
  | succ n ih =>
    have hstep : (handleKey DomKey.backspace "" s true).2 = deleteLastChar s := by
      simp [handleKey]
    rw [applyBackspaces, hstep, ih]
    have hd : (deleteLastChar s).data = s.data.dropLast := rfl
    rw [hd, List.length_dropLast, List.dropLast_eq_take, List.take_take]
    congr 1
    omega

/-- C4: for every sequence of printable-character appends followed by
backspaces applied through `handleKey`, the command buffer's length equals
`chars_appended - backspaces` truncated at 0 (never negative, backspace on an
empty buffer is a no-op), and its content is the surviving prefix of the
appended characters. -/
theorem buffer_sequence_spec (cs : List Char) (n : Nat)
    (h : ∀ c ∈ cs, isCharValid (String.mk [c]) = true) :
    (applyBackspaces n (applyCharKeys cs "")).length = cs.length - n ∧
    (applyBackspaces n (applyCharKeys cs "")).data = cs.take (cs.length - n) := by
  have h1 : (applyCharKeys cs "").data = cs := by
    simpa using applyCharKeys_data cs "" h
  have h2 := applyBackspaces_data n (applyCharKeys cs "")
  rw [h1] at h2
  refine ⟨?_, h2⟩
  show (applyBackspaces n (applyCharKeys cs "")).data.length = _
  rw [h2, List.length_take]
  omega

/-- Witness for `buffer_sequence_spec`: appending `a`, `b`, `c` then applying
five backspaces (two of them on an already-empty buffer) leaves the empty
buffer. -/
theorem buffer_sequence_spec_witness :
    (∀ c ∈ ['a', 'b', 'c'], isCharValid (String.mk [c]) = true) ∧
    (applyBackspaces 5 (applyCharKeys ['a', 'b', 'c'] "")).length = 0 ∧
    (applyBackspaces 5 (applyCharKeys ['a', 'b', 'c'] "")).data = [] := by
  have hw := buffer_sequence_spec ['a', 'b', 'c'] 5 (by decide)
  exact ⟨by decide, hw.1, hw.2⟩

/-- Trimming yields the empty list exactly when every character is
whitespace (this includes the empty list). -/
theorem trimChars_eq_nil_iff (l : List Char) :
    trimChars l = [] ↔ ∀ c ∈ l, c.isWhitespace := by
  unfold trimChars
  constructor
  · intro h c hc
    have h1 : (l.dropWhile Char.isWhitespace).reverse.dropWhile
        Char.isWhitespace = [] := by
      simpa using h
    have h2 : ∀ x ∈ (l.dropWhile Char.isWhitespace).reverse,
        Char.isWhitespace x := List.dropWhile_eq_nil_iff.mp h1
    have h3 : ∀ x ∈ l.dropWhile Char.isWhitespace, Char.isWhitespace x :=
      fun x hx => h2 x (List.mem_reverse.mpr hx)
    have h4 : c ∈ l.takeWhile Char.isWhitespace ∨
        c ∈ l.dropWhile Char.isWhitespace := by
      have := List.takeWhile_append_dropWhile Char.isWhitespace l
      rw [← this] at hc
      exact List.mem_append.mp hc
    rcases h4 with h4 | h4
    · exact List.mem_takeWhile_imp h4
    · exact h3 c h4
  · intro h
    have h1 : l.dropWhile Char.isWhitespace = [] :=
      List.dropWhile_eq_nil_iff.mpr h
    simp [h1]

/-- The code's `noCmd` test is true exactly when the JS `split(PROMPT)[1]`
portion of the current line is absent, empty, or whitespace-only. -/
theorem noCmd_iff_whitespace (l : String) :
    noCmd (some l) = true ↔
      ((jsSplitIndexOne PROMPT.data l.data).getD []).all Char.isWhitespace
        = true := by
  cases hsp : jsSplitIndexOne PROMPT.data l.data with
  | none => simp [noCmd, hsp]
  | some p =>
    simp only [noCmd, hsp, Option.getD_some, List.isEmpty_iff,
      List.all_eq_true]
    exact trimChars_eq_nil_iff p

/-- C7: for every output event, with the emulator's current line known: if the
portion of the line after the prompt marker is empty or whitespace-only (or
absent), the renderer's first action clears the current line in place;
otherwise its first action writes a newline and no action clears the line, so
the in-progress typed command is preserved. Event text equal to the bare
prompt is then emitted as a raw `write` (no trailing newline); any other text
is emitted as a colorized `writeln` (newline-terminated); and the final action
always scrolls the view to the bottom. -/
theorem render_output_spec (line text : String) :
    (((jsSplitIndexOne PROMPT.data line.data).getD []).all Char.isWhitespace
        = true →
      (renderOutput (some line) text).head? = some XAction.clearLine) ∧
    (((jsSplitIndexOne PROMPT.data line.data).getD []).all Char.isWhitespace
        = false →
      (renderOutput (some line) text).head? = some (XAction.writeln "") ∧
      XAction.clearLine ∉ renderOutput (some line) text) ∧
    (text = PROMPT →
      (renderOutput (some line) text)[1]? = some (XAction.write PROMPT)) ∧
    (text ≠ PROMPT →
      (renderOutput (some line) text)[1]? =
        some (XAction.writeln (colorText text))) ∧
    (renderOutput (some line) text).getLast? = some XAction.scrollToBottom := by
  have hn := noCmd_iff_whitespace line
  by_cases hc : noCmd (some line) = true
  · have hp := hn.mp hc
    by_cases ht : text = PROMPT <;>
      simp [renderOutput, hc, hp, ht]
  · have hp : ((jsSplitIndexOne PROMPT.data line.data).getD []).all
        Char.isWhitespace = false :=
      Bool.eq_false_iff.mpr fun h => hc (hn.mpr h)
    have hcf : noCmd (some line) = false := Bool.eq_false_iff.mpr hc
    by_cases ht : text = PROMPT <;>
      simp [renderOutput, hcf, hp, ht]

/-- Witness for `render_output_spec`: an output event `done` arriving while
the current line `$ ls -la` holds an uncommitted command, and a bare-prompt
event arriving over an idle line `$ `. -/
theorem render_output_spec_witness :
    (renderOutput (some "$ ls -la") "done").head? =
      some (XAction.writeln "") ∧
    XAction.clearLine ∉ renderOutput (some "$ ls -la") "done" ∧
    (renderOutput (some "$ ls -la") "done")[1]? =
      some (XAction.writeln (colorText "done")) ∧
    (renderOutput (some "$ ls -la") "done").getLast? =
      some XAction.scrollToBottom ∧
    (renderOutput (some "$ ") PROMPT).head? = some XAction.clearLine ∧
    (renderOutput (some "$ ") PROMPT)[1]? = some (XAction.write PROMPT) := by
  have h1 := render_output_spec "$ ls -la" "done"
  have h2 := render_output_spec "$ " PROMPT
  have hb1 := h1.2.1 (by decide)
  exact ⟨hb1.1, hb1.2, h1.2.2.2.1 (by decide), h1.2.2.2.2,
    h2.1 (by decide), h2.2.2.1 rfl⟩

end Playground
